import Mathlib

/-!
Shallow embedding of the scaffolder-backend-module-azure-repositories
plugin (three Backstage scaffolder actions for Azure DevOps), translated
from src/dist/index.cjs.js and the TypeScript sources under
src/src/actions/run/.  Git and REST side effects are modelled as the
argument records / operation traces the code would hand to its delegates;
the external collaborators (integration registry, credentials provider,
resolveSafeChildPath, config reader) are parameters of an environment
record.
-/

namespace AzureRepos

/-- JavaScript truthiness of a possibly-undefined string: `undefined` and
the empty string are falsy, every other string is truthy. -/
def strTruthy : Option String → Bool
  | none => false
  | some s => !(s = "")

/-- JavaScript template-literal interpolation of a possibly-undefined
string: interpolating `undefined` produces the text "undefined". -/
def jsInterp : Option String → String
  | some s => s
  | none => "undefined"

/-- JavaScript `x || y` on a possibly-undefined string `x` with a string
fallback `y` (falsy `x`, i.e. undefined or "", selects `y`). -/
def jsOrString (x : Option String) (y : String) : String :=
  match x with
  | some s => if s = "" then y else s
  | none => y

/-- JavaScript `x ? x : y` where both sides are possibly-undefined
strings (used for the git author name/email defaulting in
pushAzureRepo.ts lines 128-135). -/
def jsTernaryOpt (x : Option String) (y : Option String) : Option String :=
  match x with
  | some s => if s = "" then y else some s
  | none => y

/-- Credentials resolved by the Azure DevOps credentials provider
(spec section 3: a resolved type/token pair, type "pat" or "bearer"). -/
structure Credentials where
  type : String
  token : String
deriving DecidableEq

/-- Author identity handed to git commit (helpers.ts). -/
structure AuthorInfo where
  name : String
  email : String
deriving DecidableEq

/-- The gitAuthorInfo record the push action builds: both fields may be
undefined when neither input nor configuration supplies them. -/
structure GitAuthorInput where
  name : Option String
  email : Option String
deriving DecidableEq

/-- One delegated git operation, in the order the helpers issue them. -/
inductive GitOp where
  | clone (url dir : String) (depth : Nat)
  | addRemote (dir remote url : String)
  | checkout (dir ref : String)
  | branch (dir ref : String)
  | add (dir filepath : String)
  | commit (dir message : String) (author committer : AuthorInfo)
  | push (dir remote remoteRef : String)
deriving DecidableEq

/-- Author resolution of commitAndPushBranch (index.cjs.js lines 69-72):
name defaults to "Scaffolder", email to "scaffolder@backstage.io". -/
def resolvedAuthorOf (gitAuthorInfo : Option GitAuthorInput) : AuthorInfo :=
  { name := (gitAuthorInfo.bind GitAuthorInput.name).getD "Scaffolder"
    email := (gitAuthorInfo.bind GitAuthorInput.email).getD "scaffolder@backstage.io" }

/-- cloneRepo (index.cjs.js lines 32-58): clone at depth 1, add a remote
(default "origin") pointing at remoteUrl, check out branch (default
"main"), in that order. -/
def cloneRepo (dir : String) (remote : Option String) (remoteUrl : String)
    (branch : Option String) : List GitOp :=
  let remoteName := remote.getD "origin"
  let branchName := branch.getD "main"
  [GitOp.clone remoteUrl dir 1,
   GitOp.addRemote dir remoteName remoteUrl,
   GitOp.checkout dir branchName]

/-- commitAndPushBranch (index.cjs.js lines 59-103): branch defaults to
"scaffolder"; if the current branch differs from the target branch the
branch is created and checked out; then add ".", commit with the resolved
author as author and committer, and push refs/heads/branch to the remote
(default "origin").  currentBranch is the value git.currentBranch read
from the working tree (undefined when detached). -/
def commitAndPushBranch (dir : String) (remote : Option String)
    (commitMessage : String) (gitAuthorInfo : Option GitAuthorInput)
    (branch : Option String) (currentBranch : Option String) : List GitOp :=
  let branchName := branch.getD "scaffolder"
  let remoteName := remote.getD "origin"
  let authorInfo := resolvedAuthorOf gitAuthorInfo
  (if currentBranch = some branchName then []
   else [GitOp.branch dir branchName, GitOp.checkout dir branchName])
  ++ [GitOp.add dir ".",
      GitOp.commit dir commitMessage authorInfo authorInfo,
      GitOp.push dir remoteName ("refs/heads/" ++ branchName)]

/-- The branch a git working tree is on after running a trace of
operations (only checkout switches branches). -/
def currentBranchAfter (init : Option String) (ops : List GitOp) : Option String :=
  ops.foldl (fun cur op =>
    match op with
    | GitOp.checkout _ ref => some ref
    | _ => cur) init

/-- Whether a trace contains a branch-creation operation. -/
def createsBranch (ops : List GitOp) : Bool :=
  ops.any fun op =>
    match op with
    | GitOp.branch _ _ => true
    | _ => false

/-- Number of checkout operations in a trace. -/
def checkoutCount (ops : List GitOp) : Nat :=
  (ops.filter fun op =>
    match op with
    | GitOp.checkout _ _ => true
    | _ => false).length

/-- The commit messages appearing in a trace, in order. -/
def commitMessages (ops : List GitOp) : List String :=
  ops.filterMap fun op =>
    match op with
    | GitOp.commit _ m _ _ => some m
    | _ => none

/-- Split a character list at '/' separators (node's path functions work
segment-wise; an empty input yields one empty segment). -/
def splitSlash : List Char → List (List Char)
  | [] => [[]]
  | c :: rest =>
    if c = '/' then [] :: splitSlash rest
    else
      match splitSlash rest with
      | s :: ss => (c :: s) :: ss
      | [] => [[c]]

/-- One step of node's posix normalizeString over resolved segments held
in reverse order: empty and "." segments are dropped; ".." pops the last
real segment, and is kept only for relative paths (allowAboveRoot) when
there is nothing left to pop. -/
def normStep (allowAboveRoot : Bool) (acc : List (List Char)) (seg : List Char) :
    List (List Char) :=
  if seg = [] || seg = ['.'] then acc
  else if seg = ['.', '.'] then
    match acc with
    | top :: rest =>
      if top = ['.', '.'] then
        if allowAboveRoot then seg :: top :: rest else top :: rest
      else rest
    | [] => if allowAboveRoot then [seg] else []
  else seg :: acc

/-- Join segments back with '/' separators. -/
def joinSegs : List (List Char) → List Char
  | [] => []
  | [s] => s
  | s :: t :: rest => s ++ '/' :: joinSegs (t :: rest)

/-- node posix path.normalize on the character level: resolve "." and
".." segments, collapse duplicate separators, preserve a trailing '/',
return "." for an empty result (or "/" when absolute). -/
def pathNormalizeChars (p : List Char) : List Char :=
  if p = [] then ['.']
  else
    let isAbs := p.head? = some '/'
    let trailing := p.getLast? = some '/'
    let segs := (splitSlash p).foldl (normStep !isAbs) []
    let body := joinSegs segs.reverse
    if body = [] then
      if isAbs then ['/'] else if trailing then ['.', '/'] else ['.']
    else
      let body1 := if trailing then body ++ ['/'] else body
      if isAbs then '/' :: body1 else body1

/-- node posix path.normalize on strings. -/
def pathNormalize (s : String) : String :=
  String.mk (pathNormalizeChars s.data)

/-- The replace of util.ts: one maximal match of the anchored pattern
matching repetitions of ".." followed by '/', '\\' or the end of the
string is removed from the front. -/
def stripDotDotChars : List Char → List Char
  | '.' :: '.' :: '/' :: rest => stripDotDotChars rest
  | '.' :: '.' :: '\\' :: rest => stripDotDotChars rest
  | ['.', '.'] => []
  | l => l

/-- String form of the leading-traversal strip. -/
def stripDotDot (s : String) : String :=
  String.mk (stripDotDotChars s.data)

/-- node posix path.join of two parts: empty parts are skipped, the rest
joined with '/' and normalized; "." when both parts are empty. -/
def pathJoin (a b : String) : String :=
  if a = "" && b = "" then "."
  else if a = "" then pathNormalize b
  else if b = "" then pathNormalize a
  else pathNormalize (a ++ "/" ++ b)

/-- Whether the first character list is an initial run of the second. -/
def startsWithChars : List Char → List Char → Bool
  | [], _ => true
  | _ :: _, [] => false
  | a :: as, b :: bs => a = b && startsWithChars as bs

/-- Modelled from the spec: the external @backstage/backend-common
isChildPath, consumed only through its public contract — true exactly
when the path equals the base or lies strictly below it. -/
def isChildPath (base p : String) : Bool :=
  base = p || startsWithChars (base.data ++ ['/']) p.data

/-- Errors a handler can abort with.  configError and credentialError are
the two InputError throws; pathSafetyError is the "Invalid source path"
throw of getRepoSourceDirectory; runtimeTypeError is the TypeError raised
by reading .token or .type from an undefined credentials value. -/
inductive HandlerError where
  | configError (host : String)
  | credentialError (url : String)
  | pathSafetyError
  | runtimeTypeError
deriving DecidableEq

/-- getRepoSourceDirectory (index.cjs.js lines 198-211): for a truthy
sourcePath, normalize it, strip leading parent-traversal segments, join
to the workspace root and insist the result is still a child path;
otherwise return the workspace root. -/
def getRepoSourceDirectory (workspacePath : String) (sourcePath : Option String) :
    Except HandlerError String :=
  match sourcePath with
  | some sp =>
    if sp = "" then Except.ok workspacePath
    else
      let safeSuffix := stripDotDot (pathNormalize sp)
      let joined := pathJoin workspacePath safeSuffix
      if isChildPath workspacePath joined then Except.ok joined
      else Except.error HandlerError.pathSafetyError
  | none => Except.ok workspacePath

/-- The external collaborators every handler consults, modelled as an
environment: the integration registry (byHost(host)?.type), the Azure
DevOps credentials provider (getCredentials({url})), the workspace path
resolver of the clone action, and the optional-string configuration
reader of the push action. -/
structure ActionEnv where
  byHostType : String → Option String
  getCredentials : String → Option Credentials
  resolveSafeChildPath : String → String → String
  getOptionalString : String → Option String

/-- The url every handler builds: https://host/organization with host
defaulting to "dev.azure.com" and organization to "notempty". -/
def actionUrl (server organization : Option String) : String :=
  "https://" ++ server.getD "dev.azure.com" ++ "/" ++ organization.getD "notempty"

/-- token = ctx.input.token ?? credentials.token of the clone and push
handlers; reading .token from an undefined credentials value is a
runtime TypeError (the guard makes that case unreachable). -/
def resolveToken (inputToken : Option String) (credentials : Option Credentials) :
    Except HandlerError String :=
  match inputToken with
  | some t => Except.ok t
  | none =>
    match credentials with
    | some c => Except.ok c.token
    | none => Except.error HandlerError.runtimeTypeError

/-- Input of azure:repo:clone. -/
structure CloneInput where
  organization : Option String
  remoteUrl : String
  branch : Option String
  targetPath : Option String
  server : Option String
  token : Option String
deriving DecidableEq

/-- The argument record the clone handler passes to cloneRepo. -/
structure CloneCall where
  dir : String
  authUsername : String
  authPassword : String
  remoteUrl : String
  branch : Option String
deriving DecidableEq

/-- cloneAzureRepoAction handler (index.cjs.js lines 165-194): resolve
the output directory, check the integration registry for the host,
resolve credentials for https://host/organization, fail when neither an
explicit token nor provider credentials exist, then delegate to
cloneRepo with auth username "notempty" and the selected token. -/
def cloneAzureRepoHandler (env : ActionEnv) (workspacePath : String)
    (input : CloneInput) : Except HandlerError CloneCall :=
  let outputDir := env.resolveSafeChildPath workspacePath (input.targetPath.getD "./")
  let host := input.server.getD "dev.azure.com"
  if strTruthy (env.byHostType host) then
    let url := actionUrl input.server input.organization
    let credentials := env.getCredentials url
    if credentials.isNone && input.token.isNone then
      Except.error (HandlerError.credentialError url)
    else
      match resolveToken input.token credentials with
      | Except.error e => Except.error e
      | Except.ok token =>
        Except.ok { dir := outputDir, authUsername := "notempty",
                    authPassword := token, remoteUrl := input.remoteUrl,
                    branch := input.branch }
  else Except.error (HandlerError.configError host)

/-- Input of azure:repo:push. -/
structure PushInput where
  organization : Option String
  branch : Option String
  sourcePath : Option String
  gitCommitMessage : Option String
  gitAuthorName : Option String
  gitAuthorEmail : Option String
  server : Option String
  token : Option String
deriving DecidableEq

/-- The argument record the push handler passes to commitAndPushBranch. -/
structure PushCall where
  dir : String
  authUsername : String
  authPassword : String
  commitMessage : String
  gitAuthorName : Option String
  gitAuthorEmail : Option String
  branch : Option String
deriving DecidableEq

/-- pushAzureRepoAction handler (index.cjs.js lines 266-302): resolve the
source directory (may fail with the path-safety error), check the
integration registry, resolve credentials, fail when neither an explicit
token nor provider credentials exist, resolve the commit message
(gitCommitMessage when truthy, else the configured default when truthy,
else "Initial commit") and the author info, then delegate to
commitAndPushBranch. -/
def pushAzureRepoHandler (env : ActionEnv) (workspacePath : String)
    (input : PushInput) : Except HandlerError PushCall :=
  match getRepoSourceDirectory workspacePath input.sourcePath with
  | Except.error e => Except.error e
  | Except.ok sourcePath =>
    let host := input.server.getD "dev.azure.com"
    if strTruthy (env.byHostType host) then
      let url := actionUrl input.server input.organization
      let credentials := env.getCredentials url
      if credentials.isNone && input.token.isNone then
        Except.error (HandlerError.credentialError url)
      else
        match resolveToken input.token credentials with
        | Except.error e => Except.error e
        | Except.ok token =>
          let commitMessage :=
            match input.gitCommitMessage with
            | some m =>
              if m = "" then
                jsOrString (env.getOptionalString "scaffolder.defaultCommitMessage")
                  "Initial commit"
              else m
            | none =>
              jsOrString (env.getOptionalString "scaffolder.defaultCommitMessage")
                "Initial commit"
          Except.ok { dir := sourcePath, authUsername := "notempty",
                      authPassword := token, commitMessage := commitMessage,
                      gitAuthorName := jsTernaryOpt input.gitAuthorName
                        (env.getOptionalString "scaffolder.defaultAuthor.name"),
                      gitAuthorEmail := jsTernaryOpt input.gitAuthorEmail
                        (env.getOptionalString "scaffolder.defaultAuthor.email"),
                      branch := input.branch }
    else Except.error (HandlerError.configError host)

/-- Input of azure:repo:pr. -/
structure PRInput where
  organization : Option String
  sourceBranch : Option String
  targetBranch : Option String
  title : String
  repoId : String
  project : Option String
  supportsIterations : Option Bool
  server : Option String
  token : Option String
deriving DecidableEq

/-- The pull-request descriptor submitted to the REST client. -/
structure PullRequestToCreate where
  sourceRefName : String
  targetRefName : String
  title : String
deriving DecidableEq

/-- The authentication handler handed to the Azure DevOps WebApi
connection. -/
inductive AuthHandler where
  | pat (token : String)
  | bearer (token : String)
deriving DecidableEq

/-- The argument record the PR handler passes to createADOPullRequest. -/
structure PRCall where
  pullRequest : PullRequestToCreate
  url : String
  authHandler : AuthHandler
  repoId : String
  project : Option String
  supportsIterations : Option Bool
deriving DecidableEq

/-- The auth-handler expression of the PR handler (index.cjs.js line
390): a personal-access-token handler when the explicit token is truthy
or the resolved credential type is "pat" (token chosen by
ctx.input.token ?? credentials.token), else a bearer handler over
credentials.token — a TypeError when credentials is undefined. -/
def prAuthHandlerChoice (inputToken : Option String)
    (credentials : Option Credentials) : Except HandlerError AuthHandler :=
  if strTruthy inputToken || (credentials.map Credentials.type == some "pat") then
    match inputToken with
    | some t => Except.ok (AuthHandler.pat t)
    | none =>
      match credentials with
      | some c => Except.ok (AuthHandler.pat c.token)
      | none => Except.error HandlerError.runtimeTypeError
  else
    match credentials with
    | some c => Except.ok (AuthHandler.bearer c.token)
    | none => Except.error HandlerError.runtimeTypeError

/-- pullRequestAzureRepoAction handler (index.cjs.js lines 364-399).
The source/target refs come from template literals over possibly
undefined inputs; the `!= null` fallbacks to refs/heads/scaffolder and
refs/heads/main in the source never fire, because a template literal is
never null — an omitted branch interpolates as "undefined". -/
def pullRequestAzureRepoHandler (env : ActionEnv) (input : PRInput) :
    Except HandlerError PRCall :=
  let sourceBranch := "refs/heads/" ++ jsInterp input.sourceBranch
  let targetBranch := "refs/heads/" ++ jsInterp input.targetBranch
  let host := input.server.getD "dev.azure.com"
  if strTruthy (env.byHostType host) then
    let pullRequest : PullRequestToCreate :=
      { sourceRefName := sourceBranch, targetRefName := targetBranch,
        title := input.title }
    let url := actionUrl input.server input.organization
    let credentials := env.getCredentials url
    if credentials.isNone && input.token.isNone then
      Except.error (HandlerError.credentialError url)
    else
      match prAuthHandlerChoice input.token credentials with
      | Except.error e => Except.error e
      | Except.ok authHandler =>
        Except.ok { pullRequest := pullRequest, url := url,
                    authHandler := authHandler, repoId := input.repoId,
                    project := input.project,
                    supportsIterations := input.supportsIterations }
  else Except.error (HandlerError.configError host)

/-- A test environment whose provider resolves a "pat" credential. -/
def patEnv : ActionEnv :=
  { byHostType := fun _ => some "azure"
    getCredentials := fun _ => some { type := "pat", token := "provider-pat" }
    resolveSafeChildPath := fun ws p => ws ++ "/" ++ p
    getOptionalString := fun _ => none }

/-- A test environment whose provider resolves a "bearer" credential. -/
def bearerEnv : ActionEnv :=
  { patEnv with
    getCredentials := fun _ => some { type := "bearer", token := "provider-bearer" } }

/-- A test environment whose provider resolves no credentials. -/
def noCredsEnv : ActionEnv :=
  { patEnv with getCredentials := fun _ => none }

/-- PR input with sourceBranch "feature-x" and targetBranch omitted. -/
def prOmittedTarget : PRInput :=
  { organization := some "org", sourceBranch := some "feature-x",
    targetBranch := none, title := "My PR", repoId := "repo1",
    project := some "proj", supportsIterations := none,
    server := none, token := some "tok" }

/-- PR input whose explicit token is the empty string. -/
def prEmptyToken : PRInput :=
  { organization := some "org", sourceBranch := some "feature-x",
    targetBranch := some "main", title := "My PR", repoId := "repo1",
    project := some "proj", supportsIterations := none,
    server := none, token := some "" }

/-- A second PR input with an empty explicit token, for the handler
selection analysis. -/
def prEmptyTokenSel : PRInput :=
  { prEmptyToken with title := "Other PR", repoId := "repo2" }

/-- A third PR input with an empty explicit token, exercised against the
provider that resolves nothing. -/
def prEmptyTokenNoCreds : PRInput :=
  { prEmptyToken with title := "Third PR", repoId := "repo3" }

/-- Clone input with no explicit token. -/
def cloneNoToken : CloneInput :=
  { organization := some "org", remoteUrl := "https://r", branch := none,
    targetPath := none, server := none, token := none }

/-- Push input with no explicit token. -/
def pushNoToken : PushInput :=
  { organization := some "org", branch := none, sourcePath := none,
    gitCommitMessage := none, gitAuthorName := none, gitAuthorEmail := none,
    server := none, token := none }

/-- PR input with no explicit token. -/
def prNoToken : PRInput :=
  { organization := some "org", sourceBranch := some "s",
    targetBranch := some "m", title := "T", repoId := "r", project := none,
    supportsIterations := none, server := none, token := none }

/-- Clone input with explicit token "tok". -/
def cloneTok : CloneInput := { cloneNoToken with token := some "tok" }

/-- Push input with explicit token "tok". -/
def pushTok : PushInput := { pushNoToken with token := some "tok" }

/-- PR input with explicit token "tok". -/
def prTok : PRInput := { prNoToken with token := some "tok" }

/-- The delegate call the clone handler produces for cloneTok against
the bearer-credential environment. -/
def cloneTokCall : CloneCall :=
  { dir := "/ws/./", authUsername := "notempty", authPassword := "tok",
    remoteUrl := "https://r", branch := none }

/-- The delegate call the push handler produces for pushTok against the
bearer-credential environment. -/
def pushTokCall : PushCall :=
  { dir := "/ws", authUsername := "notempty", authPassword := "tok",
    commitMessage := "Initial commit", gitAuthorName := none,
    gitAuthorEmail := none, branch := none }

/-- The delegate call the PR handler produces for prTok against the
bearer-credential environment. -/
def prTokCall : PRCall :=
  { pullRequest := { sourceRefName := "refs/heads/s",
                     targetRefName := "refs/heads/m", title := "T" },
    url := "https://dev.azure.com/org", authHandler := AuthHandler.pat "tok",
    repoId := "r", project := none, supportsIterations := none }

/-- C1: evaluating the PR handler at sourceBranch "feature-x" with
targetBranch omitted shows the submitted descriptor carries
targetRefName "refs/heads/undefined" — the template literal interpolates
the undefined input and the nullish fallback to "refs/heads/main" never
fires — contradicting the documented default "main" and the claimed
descriptor shape for omitted targetBranch. -/
theorem pr_omitted_targetBranch_is_undefined :
    pullRequestAzureRepoHandler patEnv prOmittedTarget
      = Except.ok { pullRequest := { sourceRefName := "refs/heads/feature-x",
                                     targetRefName := "refs/heads/undefined",
                                     title := "My PR" },
                    url := "https://dev.azure.com/org",
                    authHandler := AuthHandler.pat "tok", repoId := "repo1",
                    project := some "proj", supportsIterations := none } := rfl

/-- C7: with an explicit token equal to the empty string and a provider
that resolves no credentials, the PR handler passes the credential guard
(the token is not undefined) and then fails with the runtime type error
of dereferencing the undefined credentials value in the bearer branch,
not with the credential input error. -/
theorem pr_empty_token_runtime_error :
    prEmptyTokenNoCreds.token = some ""
    ∧ noCredsEnv.getCredentials
        (actionUrl prEmptyTokenNoCreds.server prEmptyTokenNoCreds.organization) = none
    ∧ pullRequestAzureRepoHandler noCredsEnv prEmptyTokenNoCreds
        = Except.error HandlerError.runtimeTypeError :=
  ⟨rfl, rfl, rfl⟩

/-- C3 counterexample: the PR action with explicit token "" and a
provider-resolved bearer credential authenticates with the provider's
token "provider-bearer", not with the explicit token — refuting that an
explicitly supplied token is always the one used. -/
theorem pr_empty_token_uses_provider_token :
    prEmptyToken.token = some ""
    ∧ (pullRequestAzureRepoHandler bearerEnv prEmptyToken).toOption.map PRCall.authHandler
        = some (AuthHandler.bearer "provider-bearer")
    ∧ AuthHandler.bearer "provider-bearer" ≠ AuthHandler.bearer ""
    ∧ AuthHandler.bearer "provider-bearer" ≠ AuthHandler.pat "" :=
  ⟨rfl, rfl, by decide, by decide⟩

/-- C5 counterexample: an explicit token was given (it is not undefined)
and yet the PR handler builds a bearer handler, because the empty string
is falsy in the JavaScript disjunction — refuting the claimed
if-and-only-if characterisation of the personal-access-token choice. -/
theorem pr_pat_iff_counterexample :
    prEmptyTokenSel.token ≠ none
    ∧ strTruthy prEmptyTokenSel.token = false
    ∧ (pullRequestAzureRepoHandler bearerEnv prEmptyTokenSel).toOption.map PRCall.authHandler
        = some (AuthHandler.bearer "provider-bearer") :=
  ⟨by decide, rfl, rfl⟩

/-- C6: after cloneRepo checks out "release" the working tree is on
"release"; running commitAndPushBranch for the same branch "release"
from that state creates no branch and performs no checkout at all; and
in general a branch-creation step occurs exactly when the current branch
differs from the target branch (defaulted to "scaffolder"). -/
theorem clone_then_push_same_branch (dir remoteUrl msg : String)
    (gai : Option GitAuthorInput) (b cur : Option String) :
    currentBranchAfter none (cloneRepo dir none remoteUrl (some "release")) = some "release"
    ∧ createsBranch (commitAndPushBranch dir none msg gai (some "release")
        (currentBranchAfter none (cloneRepo dir none remoteUrl (some "release")))) = false
    ∧ checkoutCount (commitAndPushBranch dir none msg gai (some "release")
        (currentBranchAfter none (cloneRepo dir none remoteUrl (some "release")))) = 0
    ∧ (createsBranch (commitAndPushBranch dir none msg gai b cur) = true
        ↔ cur ≠ some (b.getD "scaffolder")) := by
  refine ⟨rfl, rfl, rfl, ?_⟩
  by_cases hc : cur = some (b.getD "scaffolder")
  · simp [commitAndPushBranch, createsBranch, hc]
  · simp [commitAndPushBranch, createsBranch, hc]

/-- C2: every path getRepoSourceDirectory returns is the workspace root
itself or lies strictly below it, the only error it raises is the
path-safety error, an absent sourcePath returns the root unchanged, and
the traversal example resolves /work with ../../etc to /work/etc. -/
theorem getRepoSourceDirectory_safety (ws : String) (sp : Option String) :
    (∀ r, getRepoSourceDirectory ws sp = Except.ok r
      → (ws = r ∨ startsWithChars (ws.data ++ ['/']) r.data = true))
    ∧ (∀ e, getRepoSourceDirectory ws sp = Except.error e
      → e = HandlerError.pathSafetyError)
    ∧ getRepoSourceDirectory ws none = Except.ok ws
    ∧ getRepoSourceDirectory "/work" (some "../../etc") = Except.ok "/work/etc" := by
  refine ⟨?_, ?_, rfl, rfl⟩
  · intro r h
    unfold getRepoSourceDirectory at h
    split at h
    · split at h
      · exact Or.inl (by injection h)
      · dsimp only at h
        split at h
        case isTrue hc =>
          injection h with h'
          subst h'
          have hc' := hc
          simp only [isChildPath, Bool.or_eq_true, decide_eq_true_eq] at hc'
          exact hc'
        case isFalse => exact absurd h (by simp)
    · exact Or.inl (by injection h)
  · intro e h
    unfold getRepoSourceDirectory at h
    split at h
    · split at h
      · exact absurd h (by simp)
      · dsimp only at h
        split at h
        · exact absurd h (by simp)
        · injection h with h'
          exact h'.symm
    · exact absurd h (by simp)

/-- C2 witness: the theorem applied at the concrete traversal example
and at a workspace the joined path escapes. -/
theorem getRepoSourceDirectory_safety_witness :
    ("/work" = "/work/etc"
      ∨ startsWithChars ("/work".data ++ ['/']) "/work/etc".data = true)
    ∧ getRepoSourceDirectory "/work" (some "../../etc") = Except.ok "/work/etc"
    ∧ HandlerError.pathSafetyError = HandlerError.pathSafetyError :=
  ⟨(getRepoSourceDirectory_safety "/work" (some "../../etc")).1 "/work/etc" rfl,
   (getRepoSourceDirectory_safety "/work" (some "../../etc")).2.2.2,
   (getRepoSourceDirectory_safety "" (some "x")).2.1 HandlerError.pathSafetyError rfl⟩

/-- C3 (amended): for the clone and push actions any explicitly supplied
token is the one used to authenticate the delegated git operation (the
provider-resolved token is not used); for the PR action the same holds
for every non-empty explicit token, which yields a
personal-access-token handler over exactly that token.  An empty
explicit token in the PR action can fall through to the bearer branch. -/
theorem explicit_token_precedence (env : ActionEnv) (ws : String)
    (ci : CloneInput) (pin : PushInput) (prin : PRInput) (t : String) :
    (ci.token = some t
      → ∀ c, cloneAzureRepoHandler env ws ci = Except.ok c → c.authPassword = t)
    ∧ (pin.token = some t
      → ∀ c, pushAzureRepoHandler env ws pin = Except.ok c → c.authPassword = t)
    ∧ (prin.token = some t → t ≠ ""
      → ∀ c, pullRequestAzureRepoHandler env prin = Except.ok c
          → c.authHandler = AuthHandler.pat t) := by
  refine ⟨?_, ?_, ?_⟩
  · intro htok c h
    unfold cloneAzureRepoHandler at h
    dsimp only at h
    split at h
    case isFalse => exact absurd h (by simp)
    case isTrue =>
      rw [htok] at h
      simp only [Option.isNone_some, Bool.and_false, Bool.false_eq_true,
        if_false, resolveToken] at h
      injection h with h'
      rw [← h']
  · intro htok c h
    unfold pushAzureRepoHandler at h
    split at h
    case h_1 => exact absurd h (by simp)
    case h_2 =>
      dsimp only at h
      split at h
      case isFalse => exact absurd h (by simp)
      case isTrue =>
        rw [htok] at h
        simp only [Option.isNone_some, Bool.and_false, Bool.false_eq_true,
          if_false, resolveToken] at h
        injection h with h'
        rw [← h']
  · intro htok hne c h
    unfold pullRequestAzureRepoHandler at h
    dsimp only at h
    split at h
    case isFalse => exact absurd h (by simp)
    case isTrue =>
      rw [htok] at h
      have hst : strTruthy (some t) = true := by
        simp [strTruthy, hne]
      have hch : prAuthHandlerChoice (some t)
          (env.getCredentials (actionUrl prin.server prin.organization))
            = Except.ok (AuthHandler.pat t) := by
        unfold prAuthHandlerChoice
        rw [hst]
        simp
      simp only [Option.isNone_some, Bool.and_false, Bool.false_eq_true,
        if_false, hch] at h
      injection h with h'
      rw [← h']

/-- C3 witness: the precedence theorem applied with explicit token "tok"
against the environment whose provider would resolve a bearer token. -/
theorem explicit_token_precedence_witness :
    cloneTokCall.authPassword = "tok"
    ∧ pushTokCall.authPassword = "tok"
    ∧ prTokCall.authHandler = AuthHandler.pat "tok" :=
  ⟨(explicit_token_precedence bearerEnv "/ws" cloneTok pushTok prTok "tok").1
      rfl cloneTokCall rfl,
   (explicit_token_precedence bearerEnv "/ws" cloneTok pushTok prTok "tok").2.1
      rfl pushTokCall rfl,
   (explicit_token_precedence bearerEnv "/ws" cloneTok pushTok prTok "tok").2.2
      rfl (by decide) prTokCall rfl⟩

/-- C4: with no explicit token, a provider that resolves no credentials,
and an integration registered for the host (so the earlier configuration
check passes; for the push action additionally a resolvable source
directory), every one of the three handlers fails with the credential
input error for the built url — the result carries no delegate call, so
no git or REST operation is attempted. -/
theorem missing_credentials_input_error (env : ActionEnv) (ws : String)
    (ci : CloneInput) (pin : PushInput) (prin : PRInput) :
    (ci.token = none
      → env.getCredentials (actionUrl ci.server ci.organization) = none
      → strTruthy (env.byHostType (ci.server.getD "dev.azure.com")) = true
      → cloneAzureRepoHandler env ws ci
          = Except.error (HandlerError.credentialError
              (actionUrl ci.server ci.organization)))
    ∧ (pin.token = none
      → env.getCredentials (actionUrl pin.server pin.organization) = none
      → strTruthy (env.byHostType (pin.server.getD "dev.azure.com")) = true
      → (∃ d, getRepoSourceDirectory ws pin.sourcePath = Except.ok d)
      → pushAzureRepoHandler env ws pin
          = Except.error (HandlerError.credentialError
              (actionUrl pin.server pin.organization)))
    ∧ (prin.token = none
      → env.getCredentials (actionUrl prin.server prin.organization) = none
      → strTruthy (env.byHostType (prin.server.getD "dev.azure.com")) = true
      → pullRequestAzureRepoHandler env prin
          = Except.error (HandlerError.credentialError
              (actionUrl prin.server prin.organization))) := by
  refine ⟨?_, ?_, ?_⟩
  · intro htok hcred hhost
    unfold cloneAzureRepoHandler
    simp [htok, hcred, hhost]
  · intro htok hcred hhost hdir
    obtain ⟨d, hd⟩ := hdir
    unfold pushAzureRepoHandler
    rw [hd]
    simp [htok, hcred, hhost]
  · intro htok hcred hhost
    unfold pullRequestAzureRepoHandler
    simp [htok, hcred, hhost]

/-- C4 witness: the credential-guard theorem applied at concrete inputs
with no token against the environment whose provider resolves nothing. -/
theorem missing_credentials_input_error_witness :
    cloneAzureRepoHandler noCredsEnv "/ws" cloneNoToken
      = Except.error (HandlerError.credentialError
          (actionUrl cloneNoToken.server cloneNoToken.organization))
    ∧ pushAzureRepoHandler noCredsEnv "/ws" pushNoToken
      = Except.error (HandlerError.credentialError
          (actionUrl pushNoToken.server pushNoToken.organization))
    ∧ pullRequestAzureRepoHandler noCredsEnv prNoToken
      = Except.error (HandlerError.credentialError
          (actionUrl prNoToken.server prNoToken.organization)) :=
  ⟨(missing_credentials_input_error noCredsEnv "/ws" cloneNoToken pushNoToken
      prNoToken).1 rfl rfl rfl,
   (missing_credentials_input_error noCredsEnv "/ws" cloneNoToken pushNoToken
      prNoToken).2.1 rfl rfl rfl ⟨"/ws", rfl⟩,
   (missing_credentials_input_error noCredsEnv "/ws" cloneNoToken pushNoToken
      prNoToken).2.2 rfl rfl rfl⟩

/-- The delegate call the PR handler produces for prNoToken against the
pat-credential environment. -/
def prNoTokenCall : PRCall :=
  { pullRequest := { sourceRefName := "refs/heads/s",
                     targetRefName := "refs/heads/m", title := "T" },
    url := "https://dev.azure.com/org",
    authHandler := AuthHandler.pat "provider-pat", repoId := "r",
    project := none, supportsIterations := none }

/-- The delegate call the PR handler produces for prNoToken against the
bearer-credential environment. -/
def prNoTokenBearerCall : PRCall :=
  { prNoTokenCall with authHandler := AuthHandler.bearer "provider-bearer" }

/-- Case analysis of prAuthHandlerChoice: a successful choice is a
personal-access-token handler exactly when the explicit token is truthy
or the resolved credential type is "pat", and a bearer handler always
carries the provider credential's token. -/
theorem prAuthHandlerChoice_cases (tok : Option String) (cred : Option Credentials)
    (a : AuthHandler) (h : prAuthHandlerChoice tok cred = Except.ok a) :
    ((∃ t, a = AuthHandler.pat t)
      ↔ (strTruthy tok = true ∨ cred.map Credentials.type = some "pat"))
    ∧ (∀ t, a = AuthHandler.bearer t
        → ∃ cr, cred = some cr ∧ cr.token = t) := by
  unfold prAuthHandlerChoice at h
  split at h
  case isTrue hcond =>
    simp only [Bool.or_eq_true, beq_iff_eq] at hcond
    split at h
    case h_1 t =>
      injection h with h'
      rw [← h']
      refine ⟨⟨fun _ => hcond, fun _ => ⟨t, rfl⟩⟩, ?_⟩
      intro t' ht'
      exact absurd ht' (by simp)
    case h_2 =>
      split at h
      case h_1 cr =>
        injection h with h'
        rw [← h']
        refine ⟨⟨fun _ => hcond, fun _ => ⟨cr.token, rfl⟩⟩, ?_⟩
        intro t' ht'
        exact absurd ht' (by simp)
      case h_2 => exact absurd h (by simp)
  case isFalse hcond =>
    simp only [Bool.or_eq_true, beq_iff_eq] at hcond
    push_neg at hcond
    split at h
    case h_1 cr =>
      injection h with h'
      rw [← h']
      refine ⟨⟨?_, ?_⟩, ?_⟩
      · intro ⟨t, ht⟩
        exact absurd ht (by simp)
      · intro hr
        rcases hr with h1 | h2
        · exact absurd h1 hcond.1
        · exact absurd h2 hcond.2
      · intro t' ht'
        exact ⟨cr, rfl, AuthHandler.bearer.inj ht'⟩
    case h_2 => exact absurd h (by simp)

/-- C5 (amended): in every successful PR handler run the authentication
handler is a personal-access-token handler exactly when the explicit
token is non-empty (truthy) or the provider-resolved credential type is
"pat"; otherwise it is a bearer handler built from the provider-resolved
credential's token.  An explicit token that is supplied but empty does
not by itself select the personal-access-token handler. -/
theorem pr_auth_handler_selection (env : ActionEnv) (prin : PRInput) (c : PRCall)
    (h : pullRequestAzureRepoHandler env prin = Except.ok c) :
    ((∃ t, c.authHandler = AuthHandler.pat t)
      ↔ (strTruthy prin.token = true
          ∨ (env.getCredentials (actionUrl prin.server prin.organization)).map
              Credentials.type = some "pat"))
    ∧ (∀ t, c.authHandler = AuthHandler.bearer t
        → ∃ cr, env.getCredentials (actionUrl prin.server prin.organization) = some cr
            ∧ cr.token = t) := by
  unfold pullRequestAzureRepoHandler at h
  dsimp only at h
  split at h
  case isFalse => exact absurd h (by simp)
  case isTrue =>
    split at h
    case isTrue => exact absurd h (by simp)
    case isFalse =>
      split at h
      case h_1 => exact absurd h (by simp)
      case h_2 a heq =>
        injection h with h'
        rw [← h']
        exact prAuthHandlerChoice_cases prin.token _ a heq

/-- C5 witness: the selection theorem applied at a run with no explicit
token against the pat-credential environment (yielding the
personal-access-token case of the equivalence) and against the
bearer-credential environment (yielding the bearer clause). -/
theorem pr_auth_handler_selection_witness :
    ((∃ t, prNoTokenCall.authHandler = AuthHandler.pat t)
      ↔ (strTruthy prNoToken.token = true
          ∨ (patEnv.getCredentials (actionUrl prNoToken.server prNoToken.organization)).map
              Credentials.type = some "pat"))
    ∧ ∃ cr, bearerEnv.getCredentials (actionUrl prNoToken.server prNoToken.organization)
          = some cr ∧ cr.token = "provider-bearer" :=
  ⟨(pr_auth_handler_selection patEnv prNoToken prNoTokenCall rfl).1,
   (pr_auth_handler_selection bearerEnv prNoToken prNoTokenBearerCall rfl).2
      "provider-bearer" rfl⟩

/-- The delegate call the clone handler produces for cloneNoToken
against the pat-credential environment. -/
def cloneNoTokenCall : CloneCall :=
  { dir := "/ws/./", authUsername := "notempty",
    authPassword := "provider-pat", remoteUrl := "https://r", branch := none }

/-- C8: a successful clone handler delegates with the resolved output
directory (resolveSafeChildPath of the workspace root and targetPath
defaulted to "./"), forwarding remoteUrl and branch unchanged, and
cloneRepo then issues exactly a depth-1 clone of remoteUrl into that
directory, an addRemote of the default remote name "origin" pointing at
remoteUrl (the handler passes no remote name), and a checkout of the
branch defaulted to "main" — in that order. -/
theorem clone_action_sequence (env : ActionEnv) (ws : String) (ci : CloneInput)
    (c : CloneCall) (h : cloneAzureRepoHandler env ws ci = Except.ok c) :
    c.dir = env.resolveSafeChildPath ws (ci.targetPath.getD "./")
    ∧ c.remoteUrl = ci.remoteUrl
    ∧ c.branch = ci.branch
    ∧ cloneRepo c.dir none c.remoteUrl c.branch
        = [GitOp.clone c.remoteUrl c.dir 1,
           GitOp.addRemote c.dir "origin" c.remoteUrl,
           GitOp.checkout c.dir (c.branch.getD "main")] := by
  unfold cloneAzureRepoHandler at h
  dsimp only at h
  split at h
  case isFalse => exact absurd h (by simp)
  case isTrue =>
    split at h
    case isTrue => exact absurd h (by simp)
    case isFalse =>
      split at h
      case h_1 => exact absurd h (by simp)
      case h_2 tokv heq =>
        injection h with h'
        rw [← h']
        exact ⟨rfl, rfl, rfl, rfl⟩

/-- C8 witness: the sequencing theorem applied at a concrete clone run. -/
theorem clone_action_sequence_witness :
    cloneNoTokenCall.dir
      = patEnv.resolveSafeChildPath "/ws" (cloneNoToken.targetPath.getD "./")
    ∧ cloneRepo cloneNoTokenCall.dir none cloneNoTokenCall.remoteUrl
        cloneNoTokenCall.branch
      = [GitOp.clone cloneNoTokenCall.remoteUrl cloneNoTokenCall.dir 1,
         GitOp.addRemote cloneNoTokenCall.dir "origin" cloneNoTokenCall.remoteUrl,
         GitOp.checkout cloneNoTokenCall.dir (cloneNoTokenCall.branch.getD "main")] :=
  ⟨(clone_action_sequence patEnv "/ws" cloneNoToken cloneNoTokenCall rfl).1,
   (clone_action_sequence patEnv "/ws" cloneNoToken cloneNoTokenCall rfl).2.2.2⟩

/-- The delegate call the push handler produces for pushNoToken against
the pat-credential environment. -/
def pushNoTokenCall : PushCall :=
  { dir := "/ws", authUsername := "notempty", authPassword := "provider-pat",
    commitMessage := "Initial commit", gitAuthorName := none,
    gitAuthorEmail := none, branch := none }

/-- C9: in every successful push handler run the commit message handed
to commitAndPushBranch is "Initial commit" when gitCommitMessage is
absent and no default is configured, the supplied gitCommitMessage when
it is non-empty, and the configured non-empty default when
gitCommitMessage is absent; and the trace commitAndPushBranch produces
contains exactly one commit, carrying that message. -/
theorem push_commit_message_selection (env : ActionEnv) (ws : String)
    (pin : PushInput) (c : PushCall)
    (h : pushAzureRepoHandler env ws pin = Except.ok c) :
    (pin.gitCommitMessage = none
      → env.getOptionalString "scaffolder.defaultCommitMessage" = none
      → c.commitMessage = "Initial commit")
    ∧ (∀ m, pin.gitCommitMessage = some m → m ≠ "" → c.commitMessage = m)
    ∧ (∀ d, pin.gitCommitMessage = none
      → env.getOptionalString "scaffolder.defaultCommitMessage" = some d
      → d ≠ "" → c.commitMessage = d)
    ∧ (∀ gai cur, commitMessages
        (commitAndPushBranch c.dir none c.commitMessage gai c.branch cur)
          = [c.commitMessage]) := by
  unfold pushAzureRepoHandler at h
  split at h
  case h_1 => exact absurd h (by simp)
  case h_2 srcDir hsrc =>
    dsimp only at h
    split at h
    case isFalse => exact absurd h (by simp)
    case isTrue =>
      split at h
      case isTrue => exact absurd h (by simp)
      case isFalse =>
        split at h
        case h_1 => exact absurd h (by simp)
        case h_2 tokv heq =>
          injection h with h'
          rw [← h']
          refine ⟨?_, ?_, ?_, ?_⟩
          · intro hm hcfg
            simp [hm, hcfg, jsOrString]
          · intro m hm hne
            simp [hm, hne]
          · intro d hm hcfg hne
            simp [hm, hcfg, jsOrString, hne]
          · intro gai cur
            unfold commitAndPushBranch commitMessages
            dsimp only
            split <;> rfl

/-- C9 witness: the commit-message theorem applied at a push run with no
gitCommitMessage against an environment configuring no default. -/
theorem push_commit_message_selection_witness :
    pushNoTokenCall.commitMessage = "Initial commit"
    ∧ commitMessages (commitAndPushBranch pushNoTokenCall.dir none
        pushNoTokenCall.commitMessage none pushNoTokenCall.branch none)
      = [pushNoTokenCall.commitMessage] :=
  ⟨(push_commit_message_selection patEnv "/ws" pushNoToken pushNoTokenCall rfl).1
      rfl rfl,
   (push_commit_message_selection patEnv "/ws" pushNoToken pushNoTokenCall rfl).2.2.2
      none none⟩

/-- C10: a successful push handler forwards an omitted branch unchanged,
and commitAndPushBranch with an omitted branch operates on "scaffolder":
when the current branch is not "scaffolder" it first creates and checks
out that branch and the trace ends pushing refs/heads/scaffolder; when
the current branch already is "scaffolder" the creation and checkout are
skipped and the push still updates refs/heads/scaffolder. -/
theorem push_omitted_branch_scaffolder (env : ActionEnv) (ws dir msg : String)
    (pin : PushInput) (c : PushCall) (gai : Option GitAuthorInput)
    (cur : Option String) (hb : pin.branch = none)
    (h : pushAzureRepoHandler env ws pin = Except.ok c) :
    c.branch = none
    ∧ (cur ≠ some "scaffolder"
      → commitAndPushBranch dir none msg gai none cur
          = [GitOp.branch dir "scaffolder", GitOp.checkout dir "scaffolder",
             GitOp.add dir ".",
             GitOp.commit dir msg (resolvedAuthorOf gai) (resolvedAuthorOf gai),
             GitOp.push dir "origin" "refs/heads/scaffolder"])
    ∧ (cur = some "scaffolder"
      → commitAndPushBranch dir none msg gai none cur
          = [GitOp.add dir ".",
             GitOp.commit dir msg (resolvedAuthorOf gai) (resolvedAuthorOf gai),
             GitOp.push dir "origin" "refs/heads/scaffolder"]) := by
  refine ⟨?_, ?_, ?_⟩
  · unfold pushAzureRepoHandler at h
    split at h
    case h_1 => exact absurd h (by simp)
    case h_2 srcDir hsrc =>
      dsimp only at h
      split at h
      case isFalse => exact absurd h (by simp)
      case isTrue =>
        split at h
        case isTrue => exact absurd h (by simp)
        case isFalse =>
          split at h
          case h_1 => exact absurd h (by simp)
          case h_2 tokv heq =>
            injection h with h'
            rw [← h']
            exact hb
  · intro hcur
    unfold commitAndPushBranch
    simp only [Option.getD_none]
    rw [if_neg hcur]
    rfl
  · intro hcur
    unfold commitAndPushBranch
    simp only [Option.getD_none]
    rw [if_pos hcur]
    rfl

/-- C10 witness: the theorem applied at a concrete push run with an
omitted branch, from a working tree not on "scaffolder" and from one
already on it. -/
theorem push_omitted_branch_scaffolder_witness :
    pushNoTokenCall.branch = none
    ∧ commitAndPushBranch "d" none "m" none none none
        = [GitOp.branch "d" "scaffolder", GitOp.checkout "d" "scaffolder",
           GitOp.add "d" ".",
           GitOp.commit "d" "m" (resolvedAuthorOf none) (resolvedAuthorOf none),
           GitOp.push "d" "origin" "refs/heads/scaffolder"]
    ∧ commitAndPushBranch "d" none "m" none none (some "scaffolder")
        = [GitOp.add "d" ".",
           GitOp.commit "d" "m" (resolvedAuthorOf none) (resolvedAuthorOf none),
           GitOp.push "d" "origin" "refs/heads/scaffolder"] :=
  ⟨(push_omitted_branch_scaffolder patEnv "/ws" "d" "m" pushNoToken pushNoTokenCall
      none none rfl rfl).1,
   (push_omitted_branch_scaffolder patEnv "/ws" "d" "m" pushNoToken pushNoTokenCall
      none none rfl rfl).2.1 (by decide),
   (push_omitted_branch_scaffolder patEnv "/ws" "d" "m" pushNoToken pushNoTokenCall
      none (some "scaffolder") rfl rfl).2.2 rfl⟩

end AzureRepos
